import Mathlib

/-!
Shallow embedding of `src/gamesys/src/gamesys/components/comp_light.cpp`
(the "light" component of the Defold game engine) and proofs about it.

The file models the component callbacks `CompLightNewWorld`,
`CompLightDeleteWorld`, `CompLightCreate`, `CompLightDestroy`,
`CompLightUpdate` and `CompLightOnMessage`.  External collaborators that
are not part of the supplied source (the `dmArray` container, the
`dmMessage` bus, the hash functions and `DM_SNPRINTF` from dlib, the
game-object transform accessors, and the struct layouts from the DDF
headers) are modelled explicitly; their definitions carry doc comments
saying what they stand for.  C `float` fields are carried as opaque `Int`
values: the component only copies them, never computes with them.
-/

namespace dmGameSystem

/-- Result type of the create/destroy style callbacks
(`dmGameObject::CreateResult`); only `CREATE_RESULT_OK` is produced by
this file. -/
inductive CreateResult where
  | CREATE_RESULT_OK
  | CREATE_RESULT_UNKNOWN_ERROR
deriving DecidableEq

/-- Result type of the update/on-message callbacks
(`dmGameObject::UpdateResult`). -/
inductive UpdateResult where
  | UPDATE_RESULT_OK
  | UPDATE_RESULT_UNKNOWN_ERROR
deriving DecidableEq

/-- Modelled from the spec: `Vectormath::Aos::Vector3` (the light colour);
the component only copies the value, so the three coordinates are opaque
integers here. -/
structure Vector3 where
  x : Int
  y : Int
  z : Int
deriving DecidableEq

/-- Modelled from the spec: `Vectormath::Aos::Point3` (a game-object
position); the component only copies the value. -/
structure Point3 where
  x : Int
  y : Int
  z : Int
deriving DecidableEq

/-- Modelled from the spec: `Vectormath::Aos::Quat` (a game-object
rotation); the component only copies the value. -/
structure Quat where
  x : Int
  y : Int
  z : Int
  w : Int
deriving DecidableEq

/-- Modelled from the spec: `dmGameSystemDDF::LightDesc`, the static light
resource descriptor (id string plus type, intensity, color, range, decay,
cone angle, penumbra angle, drop-off); its definition comes from a DDF
header that is not part of the supplied source, so the field list is taken
from the field accesses in `CompLightUpdate`. -/
structure LightDesc where
  m_Id : String
  m_Type : Nat
  m_Intensity : Int
  m_Color : Vector3
  m_Range : Int
  m_Decay : Int
  m_ConeAngle : Int
  m_PenumbraAngle : Int
  m_DropOff : Int
deriving DecidableEq

/-- Modelled from the spec: the `Light` object allocated by
`CompLightCreate` (its constructor lives in `comp_light.h`, not in the
supplied source: it stores the game-object instance and the light
resource).  The `ptr` field models the identity of the heap allocation,
since `CompLightDestroy` compares lights by pointer. -/
structure Light where
  ptr : Nat
  m_Instance : Nat
  m_LightResource : LightDesc
deriving DecidableEq

/-- Modelled from the spec: `LightWorld` (declared in `comp_light.h`,
not in the supplied source) holds a dynamic array `m_Lights` of light
pointers.  A dlib `dmArray` is a size plus a capacity; it is modelled as
the list of current elements together with the capacity.  A fresh
default-constructed array is empty with capacity 0. -/
structure LightWorld where
  m_Lights : List Light
  capacity : Nat
deriving DecidableEq

/-- Modelled from the spec: `dmArray::Full` — the array is full when its
size has reached its capacity. -/
def LightWorld.Full (w : LightWorld) : Bool :=
  w.m_Lights.length == w.capacity

/-- Modelled from the spec: `dmArray::OffsetCapacity k` grows the
capacity by `k`, keeping the elements. -/
def LightWorld.OffsetCapacity (w : LightWorld) (k : Nat) : LightWorld :=
  { w with capacity := w.capacity + k }

/-- Modelled from the spec: `dmArray::Push` appends one element at the
end; it asserts that the array is not full, modelled by returning `none`
when the size has reached the capacity. -/
def LightWorld.Push (w : LightWorld) (l : Light) : Option LightWorld :=
  if w.m_Lights.length < w.capacity then
    some { w with m_Lights := w.m_Lights ++ [l] }
  else
    none

/-- Modelled from the spec: `dmArray::EraseSwap i` removes the element at
index `i` by overwriting it with the last element and then dropping the
last slot. -/
def eraseSwap (l : List Light) (i : Nat) : List Light :=
  match l.getLast? with
  | none => l
  | some b => (l.set i b).dropLast

/-- Modelled from the spec: `dmArray::EraseSwap` on the world's light
list. -/
def LightWorld.EraseSwap (w : LightWorld) (i : Nat) : LightWorld :=
  { w with m_Lights := eraseSwap w.m_Lights i }

/-- CompLightNewWorld: allocates a fresh `LightWorld` (stored through
`params.m_World`) and returns `CREATE_RESULT_OK`.  The returned pair is
(the world written through `params.m_World`, the result code). -/
def CompLightNewWorld : LightWorld × CreateResult :=
  ({ m_Lights := [], capacity := 0 }, CreateResult.CREATE_RESULT_OK)

/-- CompLightDeleteWorld: deletes the world and returns
`CREATE_RESULT_OK`. -/
def CompLightDeleteWorld (_w : LightWorld) : CreateResult :=
  CreateResult.CREATE_RESULT_OK

/-- CompLightCreate: grows the world's light array by 16 when it is full,
allocates a `Light` for the given instance and resource (`ptr` models the
fresh heap address), pushes it, and stores it in the caller's user data.
The returned triple is (result code, updated world, the light written to
`*params.m_UserData`); `none` models a failed `Push` assertion. -/
def CompLightCreate (w : LightWorld) (inst : Nat) (res : LightDesc)
    (ptr : Nat) : Option (CreateResult × LightWorld × Light) :=
  let w1 := if w.Full then w.OffsetCapacity 16 else w
  let light : Light := ⟨ptr, inst, res⟩
  (w1.Push light).map (fun w2 => (CreateResult.CREATE_RESULT_OK, w2, light))

/-- Search loop of CompLightDestroy: first index `i` with
`m_Lights[i] == light` (pointer comparison). -/
def findLightIdx : List Light → Light → Option Nat
  | [], _ => none
  | x :: xs, light =>
    if x = light then some 0
    else (findLightIdx xs light).map (· + 1)

/-- CompLightDestroy: finds the light in the world's list, removes it with
`EraseSwap`, deletes it and returns `CREATE_RESULT_OK`; `none` models the
`assert(false)` branch reached when the light is not in the list. -/
def CompLightDestroy (w : LightWorld) (light : Light) :
    Option (CreateResult × LightWorld) :=
  (findLightIdx w.m_Lights light).map
    (fun i => (CreateResult.CREATE_RESULT_OK, w.EraseSwap i))

/-- Hexadecimal digit in the style of C `"%X"`: `0`–`9` then uppercase
`A`–`F`. -/
def hexDigit (n : Nat) : Char :=
  if n < 10 then Char.ofNat (48 + n) else Char.ofNat (55 + n)

/-- Big-endian uppercase hexadecimal digits of `n`, empty for `0`; the
first argument is structural fuel (any fuel `≥ n` gives the exact
value). -/
def hexCore : Nat → Nat → List Char
  | 0, _ => []
  | fuel + 1, n =>
    if n = 0 then []
    else hexCore fuel (n / 16) ++ [hexDigit (n % 16)]

/-- The character sequence produced by C `"%X"` for the value `n`:
uppercase hexadecimal with no leading zeros, and `"0"` for zero. -/
def toHexChars (n : Nat) : List Char :=
  if n = 0 then ['0'] else hexCore n n

/-- Modelled from the spec: `DM_SNPRINTF(dst, size, "%X", v)` — writes at
most `size - 1` characters of the hexadecimal rendering of `v` followed
by a terminating NUL; the value is the characters actually written
(without the NUL). -/
def snprintfHexUpper (size : Nat) (v : Nat) : List Char :=
  (toHexChars v).take (size - 1)

/-- Modelled from the spec: the wire form of `dmGameSystemDDF::SetLight`
minus the trailing id string: the light descriptor fields (with `m_Id`
holding the integer offset smuggled through the pointer field) and the
dynamic position and rotation. -/
structure SetLightFields where
  m_Id : Nat
  m_Type : Nat
  m_Intensity : Int
  m_Color : Vector3
  m_Range : Int
  m_Decay : Int
  m_ConeAngle : Int
  m_PenumbraAngle : Int
  m_DropOff : Int
deriving DecidableEq

/-- Modelled from the spec: `dmGameSystemDDF::SetLight` — the struct
placed at the start of the message buffer. -/
structure SetLight where
  m_Light : SetLightFields
  m_Position : Point3
  m_Rotation : Quat
deriving DecidableEq

/-- The message buffer built by `CompLightUpdate`: the `SetLight` struct
followed by the 9-byte tail holding the NUL-terminated hex id string. -/
structure LightBuffer where
  set_light : SetLight
  tail : List Char
deriving DecidableEq

/-- Modelled from the spec: one message posted with `dmMessage::Post`
(receiver socket, message id hash, payload buffer and its byte size). -/
structure Message where
  receiverSocket : Nat
  messageId : Nat
  payload : LightBuffer
  dataSize : Nat
deriving DecidableEq

/-- Modelled from the spec: the host environment `CompLightUpdate` runs
in — the dlib socket registry and hash functions, the game-object
transform accessors, the outcome of each `dmMessage::Post` call (indexed
by the call number within one update), and the byte size of the
`SetLight` struct. -/
structure Env where
  getSocket : String → Option Nat
  dmHashString64 : String → Nat
  dmHashString32 : String → Nat
  GetPosition : Nat → Point3
  GetRotation : Nat → Quat
  postOk : Nat → Bool
  sizeofSetLight : Nat

/-- Body of the update loop for one light: reads the position and
rotation of the light's game-object instance, renders the 32-bit hash of
the descriptor id as uppercase hex into the 9-byte tail after the
`SetLight` struct (the `% 2 ^ 32` models the `uint32_t` return type of
`dmHashString32`), stores the offset `sizeof(SetLight)` in the id field,
copies the static descriptor fields and builds the posted message. -/
def serializeLight (env : Env) (mid sock : Nat) (light : Light) : Message :=
  let light_desc := light.m_LightResource
  let tail := snprintfHexUpper 9 (env.dmHashString32 light_desc.m_Id % 2 ^ 32)
  { receiverSocket := sock
    messageId := mid
    payload :=
      { set_light :=
          { m_Light :=
              { m_Id := env.sizeofSetLight
                m_Type := light_desc.m_Type
                m_Intensity := light_desc.m_Intensity
                m_Color := light_desc.m_Color
                m_Range := light_desc.m_Range
                m_Decay := light_desc.m_Decay
                m_ConeAngle := light_desc.m_ConeAngle
                m_PenumbraAngle := light_desc.m_PenumbraAngle
                m_DropOff := light_desc.m_DropOff }
            m_Position := env.GetPosition light.m_Instance
            m_Rotation := env.GetRotation light.m_Instance }
        tail := tail }
    dataSize := env.sizeofSetLight + 9 }

/-- The `for` loop of `CompLightUpdate` over the world's lights: each
iteration serializes one light and posts it; on the first failing post
the loop exits with `UPDATE_RESULT_UNKNOWN_ERROR`.  The second component
collects the messages actually posted. -/
def updateLoop (env : Env) (mid sock : Nat) :
    List Light → Nat → UpdateResult × List Message
  | [], _ => (UpdateResult.UPDATE_RESULT_OK, [])
  | light :: rest, i =>
    let msg := serializeLight env mid sock light
    if env.postOk i then
      let r := updateLoop env mid sock rest (i + 1)
      (r.1, msg :: r.2)
    else
      (UpdateResult.UPDATE_RESULT_UNKNOWN_ERROR, [])

/-- CompLightUpdate: looks up the `"@render"` socket (returning
`UPDATE_RESULT_UNKNOWN_ERROR` with no message posted when the lookup
fails), hashes `"set_light"` (the `% 2 ^ 64` models the `dmhash_t` =
`uint64_t` return type) and then runs the per-light posting loop. -/
def CompLightUpdate (env : Env) (w : LightWorld) :
    UpdateResult × List Message :=
  match env.getSocket "@render" with
  | none => (UpdateResult.UPDATE_RESULT_UNKNOWN_ERROR, [])
  | some sock =>
    let mid := env.dmHashString64 "set_light" % 2 ^ 64
    updateLoop env mid sock w.m_Lights 0

/-- CompLightOnMessage: the body is a bare `return UPDATE_RESULT_OK` — it
does not touch the world, so the state-passing embedding returns the
world unchanged together with `UPDATE_RESULT_OK`.  The message parameter
is the incoming message. -/
def CompLightOnMessage (w : LightWorld) (_msg : Message) :
    UpdateResult × LightWorld :=
  (UpdateResult.UPDATE_RESULT_OK, w)

/-- An operation on a world: creating a light (with the given identity,
instance and resource) or destroying a previously created light. -/
inductive Op where
  | create (l : Light)
  | destroy (l : Light)
deriving DecidableEq

/-- Run one lifecycle operation on a world; `none` models a failed
assertion inside the callback. -/
def runOp (w : LightWorld) : Op → Option LightWorld
  | Op.create l =>
    (CompLightCreate w l.m_Instance l.m_LightResource l.ptr).map
      (fun r => r.2.1)
  | Op.destroy l => (CompLightDestroy w l).map (fun r => r.2)

/-- Run a sequence of create/destroy operations on a world. -/
def runOps : LightWorld → List Op → Option LightWorld
  | w, [] => some w
  | w, op :: ops => (runOp w op).bind (fun w2 => runOps w2 ops)

/-- How many times the sequence creates the light `l`. -/
def countCreates (ops : List Op) (l : Light) : Nat :=
  ops.count (Op.create l)

/-- How many times the sequence destroys the light `l`. -/
def countDestroys (ops : List Op) (l : Light) : Nat :=
  ops.count (Op.destroy l)

/-! Concrete fixtures used to instantiate the theorems below on closed
inputs. -/

/-- A concrete light descriptor. -/
def descA : LightDesc := ⟨"lamp", 1, 2, ⟨3, 4, 5⟩, 6, 7, 8, 9, 10⟩

/-- A concrete light. -/
def lA : Light := ⟨1, 10, descA⟩

/-- A second concrete light. -/
def lB : Light := ⟨2, 20, descA⟩

/-- A concrete world holding the two lights. -/
def wA : LightWorld := ⟨[lA, lB], 16⟩

/-- A concrete environment in which the `"@render"` socket exists and
every post succeeds. -/
def envA : Env :=
  { getSocket := fun s => if s = "@render" then some 1 else none
    dmHashString64 := fun _ => 7
    dmHashString32 := fun _ => 11
    GetPosition := fun n => ⟨Int.ofNat n, 0, 0⟩
    GetRotation := fun _ => ⟨0, 0, 0, 1⟩
    postOk := fun _ => true
    sizeofSetLight := 100 }

/-- A concrete environment in which the `"@render"` socket is missing. -/
def envN : Env := { envA with getSocket := fun _ => none }

/-- A concrete environment in which every post fails. -/
def envF : Env := { envA with postOk := fun _ => false }

/-- A concrete create/create/destroy history. -/
def ops3 : List Op := [Op.create lA, Op.create lB, Op.destroy lA]

/-! Helper lemmas. -/

lemma hexCore_length_le (fuel : Nat) :
    ∀ k n : Nat, n ≤ fuel → n < 16 ^ k → (hexCore fuel n).length ≤ k := by
  induction fuel with
  | zero => intro k n _ _; simp [hexCore]
  | succ fuel ih =>
    intro k n hf hk
    by_cases hn : n = 0
    · simp [hexCore, hn]
    · have hk0 : k ≠ 0 := by
        rintro rfl
        simp only [pow_zero, Nat.lt_one_iff] at hk
        exact hn hk
      obtain ⟨k', rfl⟩ : ∃ k', k = k' + 1 := ⟨k - 1, (Nat.succ_pred_eq_of_ne_zero hk0).symm⟩
      have hdivfuel : n / 16 ≤ fuel := by
        have : n / 16 < n := Nat.div_lt_self (Nat.pos_of_ne_zero hn) (by norm_num)
        omega
      have hdivpow : n / 16 < 16 ^ k' := by
        rw [Nat.div_lt_iff_lt_mul (by norm_num : 0 < 16)]
        calc n < 16 ^ (k' + 1) := hk
          _ = 16 ^ k' * 16 := by ring
      have := ih k' (n / 16) hdivfuel hdivpow
      simp only [hexCore, hn, if_false, List.length_append, List.length_cons,
        List.length_nil]
      omega

lemma toHexChars_length_le (n : Nat) (h : n < 2 ^ 32) :
    (toHexChars n).length ≤ 8 := by
  unfold toHexChars
  by_cases hn : n = 0
  · simp [hn]
  · simp only [hn, if_false]
    exact hexCore_length_le n 8 n le_rfl (by norm_num at h ⊢; omega)

lemma snprintfHexUpper_no_trunc (v : Nat) (h : v < 2 ^ 32) :
    snprintfHexUpper 9 v = toHexChars v := by
  unfold snprintfHexUpper
  exact List.take_of_length_le (by have := toHexChars_length_le v h; omega)

lemma updateLoop_all_ok (env : Env) (mid sock : Nat)
    (hp : ∀ j, env.postOk j = true) :
    ∀ (lights : List Light) (i : Nat),
      updateLoop env mid sock lights i =
        (UpdateResult.UPDATE_RESULT_OK,
         lights.map (serializeLight env mid sock)) := by
  intro lights
  induction lights with
  | nil => intro i; rfl
  | cons light rest ih =>
    intro i
    simp only [updateLoop, hp i, if_true, ih (i + 1), List.map_cons]

lemma updateLoop_mem (env : Env) (mid sock : Nat) :
    ∀ (lights : List Light) (i : Nat) (m : Message),
      m ∈ (updateLoop env mid sock lights i).2 →
      ∃ light ∈ lights, m = serializeLight env mid sock light := by
  intro lights
  induction lights with
  | nil => intro i m hm; simp [updateLoop] at hm
  | cons light rest ih =>
    intro i m hm
    simp only [updateLoop] at hm
    by_cases hp : env.postOk i
    · simp only [hp, if_true, List.mem_cons] at hm
      rcases hm with rfl | hm
      · exact ⟨light, List.mem_cons_self .., rfl⟩
      · obtain ⟨l2, hl2, rfl⟩ := ih (i + 1) m hm
        exact ⟨l2, List.mem_cons_of_mem _ hl2, rfl⟩
    · simp [hp] at hm

lemma updateLoop_stops (env : Env) (mid sock : Nat) :
    ∀ (lights : List Light) (i k : Nat), k < lights.length →
      (∀ j, j < k → env.postOk (i + j) = true) →
      env.postOk (i + k) = false →
      updateLoop env mid sock lights i =
        (UpdateResult.UPDATE_RESULT_UNKNOWN_ERROR,
         (lights.take k).map (serializeLight env mid sock)) := by
  intro lights
  induction lights with
  | nil => intro i k hk; simp at hk
  | cons light rest ih =>
    intro i k hk hbefore hfail
    cases k with
    | zero =>
      simp only [Nat.add_zero] at hfail
      simp [updateLoop, hfail]
    | succ k' =>
      have h0 : env.postOk i = true := by
        have := hbefore 0 (Nat.succ_pos k')
        simpa using this
      have hb : ∀ j, j < k' → env.postOk (i + 1 + j) = true := by
        intro j hj
        have := hbefore (j + 1) (by omega)
        simpa [Nat.add_assoc, Nat.add_comm 1 j] using this
      have hf : env.postOk (i + 1 + k') = false := by
        simpa [Nat.add_assoc, Nat.add_comm 1 k'] using hfail
      have hk' : k' < rest.length := by simpa using hk
      simp only [updateLoop, h0, if_true, ih (i + 1) k' hk' hb hf,
        List.take_succ_cons, List.map_cons]

lemma findLightIdx_some :
    ∀ (lights : List Light) (light : Light) (i : Nat),
      findLightIdx lights light = some i →
      ∃ h : i < lights.length, lights[i] = light := by
  intro lights
  induction lights with
  | nil => intro light i h; simp [findLightIdx] at h
  | cons x xs ih =>
    intro light i h
    simp only [findLightIdx] at h
    by_cases hx : x = light
    · simp only [hx, if_true, Option.some.injEq] at h
      subst h
      exact ⟨by simp, by simp [hx]⟩
    · simp only [hx, if_false, Option.map_eq_some'] at h
      obtain ⟨j, hj, rfl⟩ := h
      obtain ⟨hlt, hget⟩ := ih light j hj
      exact ⟨by simpa using Nat.succ_lt_succ hlt, by simpa using hget⟩

lemma findLightIdx_of_mem :
    ∀ (lights : List Light) (light : Light), light ∈ lights →
      ∃ i, findLightIdx lights light = some i := by
  intro lights
  induction lights with
  | nil => intro light h; simp at h
  | cons x xs ih =>
    intro light h
    by_cases hx : x = light
    · exact ⟨0, by simp [findLightIdx, hx]⟩
    · have hmem : light ∈ xs := by
        rcases List.mem_cons.mp h with rfl | h2
        · exact absurd rfl hx
        · exact h2
      obtain ⟨i, hi⟩ := ih light hmem
      exact ⟨i + 1, by simp [findLightIdx, hx, hi]⟩

lemma count_eraseSwap (l : List Light) (i : Nat) (h : i < l.length) (x : Light) :
    (eraseSwap l i).count x + (if l[i] = x then 1 else 0) = l.count x := by
  have hne : l ≠ [] := List.ne_nil_of_length_pos (by omega)
  have hb : l.getLast? = some (l.getLast hne) := List.getLast?_eq_getLast ..
  set b := l.getLast hne with hbdef
  have hset : l.set i b = l.take i ++ b :: l.drop (i + 1) := by
    rw [List.set_eq_take_append_cons_drop, if_pos h]
  have hdecomp : l = l.take i ++ l[i] :: l.drop (i + 1) := by
    conv_lhs => rw [← List.take_append_drop i l]
    rw [List.drop_eq_getElem_cons h]
  have hgoal : eraseSwap l i = (l.set i b).dropLast := by
    unfold eraseSwap
    rw [hb]
  rw [hgoal, hset]
  by_cases hcase : i + 1 < l.length
  · -- the erased slot is not the last one
    have hdne : l.drop (i + 1) ≠ [] := by
      apply List.ne_nil_of_length_pos
      rw [List.length_drop]
      omega
    have hassoc : l.take i ++ l[i] :: l.drop (i + 1)
        = (l.take i ++ [l[i]]) ++ l.drop (i + 1) := by simp
    have hgl : (l.drop (i + 1)).getLast? = l.getLast? := by
      conv_rhs => rw [hdecomp, hassoc]
      exact (List.getLast?_append_of_ne_nil _ hdne).symm
    have hlast : (l.drop (i + 1)).getLast hdne = b := by
      have h1 : (l.drop (i + 1)).getLast? =
          some ((l.drop (i + 1)).getLast hdne) := List.getLast?_eq_getLast ..
      rw [hgl, hb] at h1
      exact (Option.some.inj h1).symm
    have hd2 : l.drop (i + 1) = (l.drop (i + 1)).dropLast ++ [b] := by
      conv_lhs => rw [← List.dropLast_append_getLast hdne]
      rw [hlast]
    have hdl : (l.take i ++ b :: l.drop (i + 1)).dropLast
        = l.take i ++ b :: (l.drop (i + 1)).dropLast := by
      rw [List.dropLast_append_of_ne_nil _ (by simp : (b :: l.drop (i + 1)) ≠ [])]
      have hcons : (b :: l.drop (i + 1)) = [b] ++ l.drop (i + 1) := by simp
      rw [hcons, List.dropLast_append_of_ne_nil _ hdne]
      simp
    have F0 : (l.drop (i + 1)).count x =
        ((l.drop (i + 1)).dropLast).count x + (if b = x then 1 else 0) := by
      conv_lhs => rw [hd2]
      simp [List.count_append, List.count_cons, beq_iff_eq]
    rw [hdl]
    conv_rhs => rw [hdecomp]
    simp only [List.count_append, List.count_cons, beq_iff_eq]
    rw [F0]
    split_ifs <;> omega
  · -- the erased slot is the last one
    have hlen : i + 1 = l.length := by omega
    have hdrop : l.drop (i + 1) = [] := List.drop_eq_nil_of_le (by omega)
    have hdecomp2 : l = l.take i ++ [l[i]] := by
      conv_lhs => rw [hdecomp]
      rw [hdrop]
    rw [hdrop, List.dropLast_concat]
    conv_rhs => rw [hdecomp2]
    simp only [List.count_append, List.count_cons, List.count_nil, beq_iff_eq]
    split_ifs <;> omega

lemma compLightCreate_total (w : LightWorld) (inst : Nat) (res : LightDesc)
    (ptr : Nat) (hinv : w.m_Lights.length ≤ w.capacity) :
    CompLightCreate w inst res ptr =
      some (CreateResult.CREATE_RESULT_OK,
        ⟨w.m_Lights ++ [⟨ptr, inst, res⟩],
         if w.m_Lights.length = w.capacity then w.capacity + 16
         else w.capacity⟩,
        ⟨ptr, inst, res⟩) := by
  unfold CompLightCreate LightWorld.Push LightWorld.Full LightWorld.OffsetCapacity
  by_cases hf : w.m_Lights.length = w.capacity
  · simp only [hf, beq_self_eq_true, if_true]
    have : w.capacity < w.capacity + 16 := by omega
    simp [hf, this]
  · have hne : (w.m_Lights.length == w.capacity) = false := by
      simp [hf]
    have hlt : w.m_Lights.length < w.capacity := by omega
    simp [hne, hlt, hf]

lemma compLightCreate_none (w : LightWorld) (inst : Nat) (res : LightDesc)
    (ptr : Nat) (hinv : w.capacity < w.m_Lights.length) :
    CompLightCreate w inst res ptr = none := by
  unfold CompLightCreate LightWorld.Push LightWorld.Full LightWorld.OffsetCapacity
  have h1 : (w.m_Lights.length == w.capacity) = false := by
    simp only [beq_eq_false_iff_ne, ne_eq]
    omega
  have h2 : ¬ w.m_Lights.length < w.capacity := by omega
  simp [h1, h2]

lemma compLightCreate_some (w : LightWorld) (inst : Nat) (res : LightDesc)
    (ptr : Nat) (r : CreateResult) (w2 : LightWorld) (lout : Light)
    (h : CompLightCreate w inst res ptr = some (r, w2, lout)) :
    r = CreateResult.CREATE_RESULT_OK ∧ lout = ⟨ptr, inst, res⟩ ∧
      w2.m_Lights = w.m_Lights ++ [lout] := by
  by_cases hinv : w.m_Lights.length ≤ w.capacity
  · rw [compLightCreate_total w inst res ptr hinv] at h
    simp only [Option.some.injEq, Prod.mk.injEq] at h
    obtain ⟨hr, hw2, hlo⟩ := h
    subst hw2
    subst hlo
    exact ⟨hr.symm, rfl, rfl⟩
  · rw [compLightCreate_none w inst res ptr (by omega)] at h
    simp at h

lemma compLightDestroy_of_mem (w : LightWorld) (light : Light)
    (h : light ∈ w.m_Lights) :
    ∃ i, ∃ hi : i < w.m_Lights.length,
      w.m_Lights[i] = light ∧
      CompLightDestroy w light =
        some (CreateResult.CREATE_RESULT_OK, w.EraseSwap i) := by
  obtain ⟨i, hfind⟩ := findLightIdx_of_mem _ _ h
  obtain ⟨hi, hget⟩ := findLightIdx_some _ _ _ hfind
  exact ⟨i, hi, hget, by simp [CompLightDestroy, hfind]⟩

lemma compLightDestroy_some (w : LightWorld) (light : Light)
    (r : CreateResult) (w2 : LightWorld)
    (h : CompLightDestroy w light = some (r, w2)) :
    r = CreateResult.CREATE_RESULT_OK ∧
      ∃ i, ∃ hi : i < w.m_Lights.length,
        w.m_Lights[i] = light ∧ w2 = w.EraseSwap i := by
  unfold CompLightDestroy at h
  cases hf : findLightIdx w.m_Lights light with
  | none => rw [hf] at h; simp at h
  | some i =>
    rw [hf] at h
    simp only [Option.map_some', Option.some.injEq, Prod.mk.injEq] at h
    obtain ⟨hi, hget⟩ := findLightIdx_some _ _ _ hf
    exact ⟨h.1.symm, i, hi, hget, h.2.symm⟩

lemma runOps_count :
    ∀ (ops : List Op) (w w2 : LightWorld), runOps w ops = some w2 →
      ∀ l : Light,
        w2.m_Lights.count l + countDestroys ops l =
          w.m_Lights.count l + countCreates ops l := by
  intro ops
  induction ops with
  | nil =>
    intro w w2 h l
    simp only [runOps, Option.some.injEq] at h
    subst h
    simp [countCreates, countDestroys]
  | cons op ops ih =>
    intro w w2 h l
    simp only [runOps, Option.bind_eq_some'] at h
    obtain ⟨w1, hop, hops⟩ := h
    have IH := ih w1 w2 hops l
    cases op with
    | create lc =>
      simp only [runOp, Option.map_eq_some'] at hop
      obtain ⟨⟨r, wn, lo⟩, hc, hw1⟩ := hop
      obtain ⟨hr, hlo, hlights⟩ := compLightCreate_some _ _ _ _ _ _ _ hc
      have hlo2 : lo = lc := by rw [hlo]
      subst hlo2
      have hcount1 : w1.m_Lights.count l
          = w.m_Lights.count l + (if lo = l then 1 else 0) := by
        rw [← hw1]
        simp [hlights, List.count_append, List.count_cons, beq_iff_eq]
      have hcc : countCreates (Op.create lo :: ops) l
          = countCreates ops l + (if lo = l then 1 else 0) := by
        simp [countCreates, List.count_cons, beq_iff_eq]
      have hcd : countDestroys (Op.create lo :: ops) l
          = countDestroys ops l := by
        simp [countDestroys, List.count_cons]
      rw [hcc, hcd]
      split_ifs at hcount1 ⊢ <;> omega
    | destroy ld =>
      simp only [runOp, Option.map_eq_some'] at hop
      obtain ⟨⟨r, wn⟩, hd, hw1⟩ := hop
      obtain ⟨hr, i, hi, hget, hwn⟩ := compLightDestroy_some _ _ _ _ hd
      have hcount1 : w1.m_Lights.count l + (if ld = l then 1 else 0)
          = w.m_Lights.count l := by
        have := count_eraseSwap w.m_Lights i hi l
        rw [hget] at this
        rw [← hw1]
        simpa [hwn, LightWorld.EraseSwap] using this
      have hcc : countCreates (Op.destroy ld :: ops) l
          = countCreates ops l := by
        simp [countCreates, List.count_cons]
      have hcd : countDestroys (Op.destroy ld :: ops) l
          = countDestroys ops l + (if ld = l then 1 else 0) := by
        simp [countDestroys, List.count_cons, beq_iff_eq]
      rw [hcc, hcd]
      split_ifs at hcount1 ⊢ <;> omega

/-- C1: for every world, each call to `CompLightUpdate` iterates over
every light currently in the world's list and, for each one, fills a
message buffer with that light's current position and rotation (read from
its game-object instance) together with the static descriptor fields
(type, intensity, color, range, decay, cone angle, penumbra angle,
drop-off) of its light resource, posts that message, and returns
`UPDATE_RESULT_OK` when every post succeeds. -/
theorem C1_update_posts_every_light (env : Env) (w : LightWorld)
    (sock : Nat) (hs : env.getSocket "@render" = some sock)
    (hp : ∀ j, env.postOk j = true) :
    CompLightUpdate env w =
      (UpdateResult.UPDATE_RESULT_OK,
       w.m_Lights.map
         (serializeLight env (env.dmHashString64 "set_light" % 2 ^ 64) sock)) ∧
    ∀ light ∈ w.m_Lights,
      (serializeLight env (env.dmHashString64 "set_light" % 2 ^ 64) sock
          light).payload.set_light.m_Position =
        env.GetPosition light.m_Instance ∧
      (serializeLight env (env.dmHashString64 "set_light" % 2 ^ 64) sock
          light).payload.set_light.m_Rotation =
        env.GetRotation light.m_Instance ∧
      (serializeLight env (env.dmHashString64 "set_light" % 2 ^ 64) sock
          light).payload.set_light.m_Light =
        { m_Id := env.sizeofSetLight
          m_Type := light.m_LightResource.m_Type
          m_Intensity := light.m_LightResource.m_Intensity
          m_Color := light.m_LightResource.m_Color
          m_Range := light.m_LightResource.m_Range
          m_Decay := light.m_LightResource.m_Decay
          m_ConeAngle := light.m_LightResource.m_ConeAngle
          m_PenumbraAngle := light.m_LightResource.m_PenumbraAngle
          m_DropOff := light.m_LightResource.m_DropOff } := by
  constructor
  · unfold CompLightUpdate
    rw [hs]
    exact updateLoop_all_ok env _ sock hp w.m_Lights 0
  · intro light _
    exact ⟨rfl, rfl, rfl⟩

/-- Witness for C1 on concrete inputs. -/
theorem C1_witness :
    (envA.getSocket "@render" = some 1) ∧
    (∀ j, envA.postOk j = true) ∧
    (CompLightUpdate envA wA =
      (UpdateResult.UPDATE_RESULT_OK,
       wA.m_Lights.map
         (serializeLight envA (envA.dmHashString64 "set_light" % 2 ^ 64) 1)) ∧
    ∀ light ∈ wA.m_Lights,
      (serializeLight envA (envA.dmHashString64 "set_light" % 2 ^ 64) 1
          light).payload.set_light.m_Position =
        envA.GetPosition light.m_Instance ∧
      (serializeLight envA (envA.dmHashString64 "set_light" % 2 ^ 64) 1
          light).payload.set_light.m_Rotation =
        envA.GetRotation light.m_Instance ∧
      (serializeLight envA (envA.dmHashString64 "set_light" % 2 ^ 64) 1
          light).payload.set_light.m_Light =
        { m_Id := envA.sizeofSetLight
          m_Type := light.m_LightResource.m_Type
          m_Intensity := light.m_LightResource.m_Intensity
          m_Color := light.m_LightResource.m_Color
          m_Range := light.m_LightResource.m_Range
          m_Decay := light.m_LightResource.m_Decay
          m_ConeAngle := light.m_LightResource.m_ConeAngle
          m_PenumbraAngle := light.m_LightResource.m_PenumbraAngle
          m_DropOff := light.m_LightResource.m_DropOff }) :=
  ⟨by decide, fun _ => rfl,
   C1_update_posts_every_light envA wA 1 (by decide) (fun _ => rfl)⟩

/-- C2: every message `CompLightUpdate` posts is sent to the socket
registered under the name `"@render"` with message id the 64-bit hash of
`"set_light"`; if the `"@render"` socket lookup fails, `CompLightUpdate`
returns `UPDATE_RESULT_UNKNOWN_ERROR` and posts no message at all for any
light. -/
theorem C2_render_socket_and_message_id (env : Env) (w : LightWorld) :
    (∀ sock : Nat, env.getSocket "@render" = some sock →
      ∀ m ∈ (CompLightUpdate env w).2,
        m.receiverSocket = sock ∧
        m.messageId = env.dmHashString64 "set_light" % 2 ^ 64) ∧
    (env.getSocket "@render" = none →
      CompLightUpdate env w =
        (UpdateResult.UPDATE_RESULT_UNKNOWN_ERROR, [])) := by
  constructor
  · intro sock hs m hm
    unfold CompLightUpdate at hm
    rw [hs] at hm
    obtain ⟨light, _, rfl⟩ := updateLoop_mem env _ sock w.m_Lights 0 m hm
    exact ⟨rfl, rfl⟩
  · intro hs
    unfold CompLightUpdate
    rw [hs]

/-- Witness for C2 on concrete inputs: one posted message in the
successful environment, and the failed-lookup behaviour in `envN`. -/
theorem C2_witness :
    (envA.getSocket "@render" = some 1) ∧
    (serializeLight envA (envA.dmHashString64 "set_light" % 2 ^ 64) 1 lA ∈
      (CompLightUpdate envA wA).2) ∧
    ((serializeLight envA (envA.dmHashString64 "set_light" % 2 ^ 64) 1
        lA).receiverSocket = 1 ∧
     (serializeLight envA (envA.dmHashString64 "set_light" % 2 ^ 64) 1
        lA).messageId = envA.dmHashString64 "set_light" % 2 ^ 64) ∧
    (envN.getSocket "@render" = none) ∧
    (CompLightUpdate envN wA =
      (UpdateResult.UPDATE_RESULT_UNKNOWN_ERROR, [])) :=
  ⟨by decide, by decide,
   (C2_render_socket_and_message_id envA wA).1 1 (by decide) _ (by decide),
   rfl, (C2_render_socket_and_message_id envN wA).2 rfl⟩

/-- C4: for every light serialized by `CompLightUpdate`, the light's id
is encoded as the uppercase hexadecimal string of the 32-bit hash of the
descriptor's id string, written into the 9-byte tail of the buffer
immediately after the `SetLight` struct, and the message's `m_Id` field
is set to the offset `sizeof(SetLight)` (an offset, not a pointer)
referring to that string. -/
theorem C4_id_written_as_uppercase_hex (env : Env) (w : LightWorld)
    (sock : Nat) (hs : env.getSocket "@render" = some sock) :
    ∀ m ∈ (CompLightUpdate env w).2, ∃ light ∈ w.m_Lights,
      m.payload.tail =
        toHexChars (env.dmHashString32 light.m_LightResource.m_Id % 2 ^ 32) ∧
      m.payload.tail.length + 1 ≤ 9 ∧
      m.payload.set_light.m_Light.m_Id = env.sizeofSetLight := by
  intro m hm
  unfold CompLightUpdate at hm
  rw [hs] at hm
  obtain ⟨light, hl, rfl⟩ := updateLoop_mem env _ sock w.m_Lights 0 m hm
  have hlt : env.dmHashString32 light.m_LightResource.m_Id % 2 ^ 32 < 2 ^ 32 :=
    Nat.mod_lt _ (by norm_num)
  have htail := snprintfHexUpper_no_trunc _ hlt
  refine ⟨light, hl, htail, ?_, rfl⟩
  show (snprintfHexUpper 9 _).length + 1 ≤ 9
  rw [htail]
  have := toHexChars_length_le _ hlt
  omega

/-- Witness for C4 on concrete inputs. -/
theorem C4_witness :
    (envA.getSocket "@render" = some 1) ∧
    (serializeLight envA (envA.dmHashString64 "set_light" % 2 ^ 64) 1 lA ∈
      (CompLightUpdate envA wA).2) ∧
    (∃ light ∈ wA.m_Lights,
      (serializeLight envA (envA.dmHashString64 "set_light" % 2 ^ 64) 1
          lA).payload.tail =
        toHexChars (envA.dmHashString32 light.m_LightResource.m_Id % 2 ^ 32) ∧
      (serializeLight envA (envA.dmHashString64 "set_light" % 2 ^ 64) 1
          lA).payload.tail.length + 1 ≤ 9 ∧
      (serializeLight envA (envA.dmHashString64 "set_light" % 2 ^ 64) 1
          lA).payload.set_light.m_Light.m_Id = envA.sizeofSetLight) :=
  ⟨by decide, by decide,
   C4_id_written_as_uppercase_hex envA wA 1 (by decide) _ (by decide)⟩

/-- C5: the serialization buffer used by `CompLightUpdate` is fixed-size
for every light and every descriptor: always `sizeof(SetLight) + 9`
bytes, and writing the hex encoding of any 32-bit hash into the 9-byte
tail never truncates, since `"%X"` of a 32-bit value produces at most 8
characters plus a terminating NUL. -/
theorem C5_fixed_size_buffer_no_truncation (env : Env) (w : LightWorld) :
    (∀ m ∈ (CompLightUpdate env w).2, m.dataSize = env.sizeofSetLight + 9) ∧
    (∀ h : Nat, h < 2 ^ 32 →
      (toHexChars h).length ≤ 8 ∧ snprintfHexUpper 9 h = toHexChars h) := by
  constructor
  · intro m hm
    unfold CompLightUpdate at hm
    cases hs : env.getSocket "@render" with
    | none => rw [hs] at hm; simp at hm
    | some sock =>
      rw [hs] at hm
      obtain ⟨light, _, rfl⟩ := updateLoop_mem env _ sock w.m_Lights 0 m hm
      rfl
  · intro h hlt
    exact ⟨toHexChars_length_le h hlt, snprintfHexUpper_no_trunc h hlt⟩

/-- Witness for C5 on concrete inputs. -/
theorem C5_witness :
    (serializeLight envA (envA.dmHashString64 "set_light" % 2 ^ 64) 1 lA ∈
      (CompLightUpdate envA wA).2) ∧
    ((serializeLight envA (envA.dmHashString64 "set_light" % 2 ^ 64) 1
        lA).dataSize = envA.sizeofSetLight + 9) ∧
    ((4294967295 : Nat) < 2 ^ 32) ∧
    ((toHexChars 4294967295).length ≤ 8 ∧
      snprintfHexUpper 9 4294967295 = toHexChars 4294967295) :=
  ⟨by decide,
   (C5_fixed_size_buffer_no_truncation envA wA).1 _ (by decide),
   by decide,
   (C5_fixed_size_buffer_no_truncation envA wA).2 4294967295 (by decide)⟩

/-- C3: each world maintains a dynamic list of light instances:
`CompLightCreate` appends exactly one new light (for the given instance
and resource) to the world's list and stores it in the caller's user
data, `CompLightDestroy` removes exactly that light from the list, and
for every sequence of create/destroy calls the world's list contains
exactly the lights that were created in that world and not yet destroyed
(stated as a multiplicity identity: for every light, its count in the
final list plus the number of times it was destroyed equals the number of
times it was created). -/
theorem C3_list_tracks_created_not_destroyed :
    (∀ (w : LightWorld) (inst : Nat) (res : LightDesc) (ptr : Nat),
      w.m_Lights.length ≤ w.capacity →
      ∃ w2 : LightWorld,
        CompLightCreate w inst res ptr =
          some (CreateResult.CREATE_RESULT_OK, w2, ⟨ptr, inst, res⟩) ∧
        w2.m_Lights = w.m_Lights ++ [⟨ptr, inst, res⟩]) ∧
    (∀ (w : LightWorld) (light : Light), light ∈ w.m_Lights →
      ∃ w2 : LightWorld,
        CompLightDestroy w light =
          some (CreateResult.CREATE_RESULT_OK, w2) ∧
        w2.m_Lights.count light + 1 = w.m_Lights.count light ∧
        ∀ x : Light, x ≠ light →
          w2.m_Lights.count x = w.m_Lights.count x) ∧
    (∀ (ops : List Op) (w2 : LightWorld),
      runOps CompLightNewWorld.1 ops = some w2 →
      ∀ l : Light,
        w2.m_Lights.count l + countDestroys ops l = countCreates ops l) := by
  refine ⟨?_, ?_, ?_⟩
  · intro w inst res ptr hinv
    exact ⟨_, compLightCreate_total w inst res ptr hinv, rfl⟩
  · intro w light hmem
    obtain ⟨i, hi, hget, hdes⟩ := compLightDestroy_of_mem w light hmem
    refine ⟨w.EraseSwap i, hdes, ?_, ?_⟩
    · have := count_eraseSwap w.m_Lights i hi light
      rw [hget] at this
      simpa [LightWorld.EraseSwap] using this
    · intro x hx
      have := count_eraseSwap w.m_Lights i hi x
      rw [hget] at this
      rw [if_neg (fun hxx : light = x => hx hxx.symm)] at this
      simpa [LightWorld.EraseSwap] using this
  · intro ops w2 h l
    have := runOps_count ops CompLightNewWorld.1 w2 h l
    simpa [CompLightNewWorld] using this

/-- Witness for C3 on concrete inputs: one create, one destroy, and a
create/create/destroy history starting from a fresh world. -/
theorem C3_witness :
    ((⟨[], 5⟩ : LightWorld).m_Lights.length ≤ (⟨[], 5⟩ : LightWorld).capacity) ∧
    (∃ w2 : LightWorld,
      CompLightCreate ⟨[], 5⟩ 10 descA 1 =
        some (CreateResult.CREATE_RESULT_OK, w2, ⟨1, 10, descA⟩) ∧
      w2.m_Lights = (⟨[], 5⟩ : LightWorld).m_Lights ++ [⟨1, 10, descA⟩]) ∧
    (lA ∈ wA.m_Lights) ∧
    (∃ w2 : LightWorld,
      CompLightDestroy wA lA =
        some (CreateResult.CREATE_RESULT_OK, w2) ∧
      w2.m_Lights.count lA + 1 = wA.m_Lights.count lA ∧
      ∀ x : Light, x ≠ lA → w2.m_Lights.count x = wA.m_Lights.count x) ∧
    (runOps CompLightNewWorld.1 ops3 = some ⟨[lB], 16⟩) ∧
    ((⟨[lB], 16⟩ : LightWorld).m_Lights.count lA + countDestroys ops3 lA =
      countCreates ops3 lA) :=
  ⟨by decide,
   C3_list_tracks_created_not_destroyed.1 ⟨[], 5⟩ 10 descA 1 (by decide),
   by decide,
   C3_list_tracks_created_not_destroyed.2.1 wA lA (by decide),
   by decide,
   C3_list_tracks_created_not_destroyed.2.2 ops3 ⟨[lB], 16⟩ (by decide) lA⟩

/-- C6: `CompLightNewWorld` always creates a fresh world whose light list
is empty, stores it through `params.m_World`, and returns
`CREATE_RESULT_OK`; `CompLightDeleteWorld` always destroys the given
world and returns `CREATE_RESULT_OK`. -/
theorem C6_world_lifecycle :
    CompLightNewWorld.1.m_Lights = [] ∧
    CompLightNewWorld.2 = CreateResult.CREATE_RESULT_OK ∧
    ∀ w : LightWorld,
      CompLightDeleteWorld w = CreateResult.CREATE_RESULT_OK :=
  ⟨rfl, rfl, fun _ => rfl⟩

/-- C7: `CompLightOnMessage` returns `UPDATE_RESULT_OK` for every
incoming message and leaves the world state and every light unchanged
(it ignores all messages). -/
theorem C7_on_message_ignores_everything :
    ∀ (w : LightWorld) (msg : Message),
      CompLightOnMessage w msg = (UpdateResult.UPDATE_RESULT_OK, w) :=
  fun _ _ => rfl

/-- C8: if posting the message for the `k`-th light in the world's list
fails, `CompLightUpdate` returns `UPDATE_RESULT_UNKNOWN_ERROR`
immediately: messages for all lights before index `k` have already been
posted and no message is posted for any light at or after index `k`, so
a failing update is not atomic. -/
theorem C8_failed_post_returns_immediately (env : Env) (w : LightWorld)
    (sock k : Nat) (hs : env.getSocket "@render" = some sock)
    (hk : k < w.m_Lights.length)
    (hbefore : ∀ j, j < k → env.postOk j = true)
    (hfail : env.postOk k = false) :
    CompLightUpdate env w =
      (UpdateResult.UPDATE_RESULT_UNKNOWN_ERROR,
       (w.m_Lights.take k).map
         (serializeLight env (env.dmHashString64 "set_light" % 2 ^ 64) sock)) := by
  unfold CompLightUpdate
  rw [hs]
  exact updateLoop_stops env _ sock w.m_Lights 0 k hk
    (fun j hj => by simpa using hbefore j hj) (by simpa using hfail)

/-- Witness for C8 on concrete inputs: with every post failing, the first
light already aborts the update and nothing is posted. -/
theorem C8_witness :
    (envF.getSocket "@render" = some 1) ∧
    (0 < wA.m_Lights.length) ∧
    (∀ j, j < 0 → envF.postOk j = true) ∧
    (envF.postOk 0 = false) ∧
    (CompLightUpdate envF wA =
      (UpdateResult.UPDATE_RESULT_UNKNOWN_ERROR,
       (wA.m_Lights.take 0).map
         (serializeLight envF (envF.dmHashString64 "set_light" % 2 ^ 64) 1))) :=
  ⟨by decide, by decide, fun j hj => absurd hj (Nat.not_lt_zero j), rfl,
   C8_failed_post_returns_immediately envF wA 1 0 (by decide) (by decide)
     (fun j hj => absurd hj (Nat.not_lt_zero j)) rfl⟩

/-- C9: `CompLightCreate` never overflows the world's light list:
whenever the list is full its capacity is first increased by 16 and only
then is the new light pushed, and `CompLightCreate` returns
`CREATE_RESULT_OK` on every call (under the `dmArray` invariant that the
size never exceeds the capacity). -/
theorem C9_create_never_overflows (w : LightWorld) (inst : Nat)
    (res : LightDesc) (ptr : Nat)
    (hinv : w.m_Lights.length ≤ w.capacity) :
    ∃ w2 : LightWorld,
      CompLightCreate w inst res ptr =
        some (CreateResult.CREATE_RESULT_OK, w2, ⟨ptr, inst, res⟩) ∧
      w2.m_Lights = w.m_Lights ++ [⟨ptr, inst, res⟩] ∧
      w2.m_Lights.length ≤ w2.capacity ∧
      (w.Full = true → w2.capacity = w.capacity + 16) ∧
      (w.Full = false → w2.capacity = w.capacity) := by
  refine ⟨_, compLightCreate_total w inst res ptr hinv, rfl, ?_, ?_, ?_⟩
  · simp only [List.length_append, List.length_cons, List.length_nil]
    by_cases hf : w.m_Lights.length = w.capacity
    · simp only [if_pos hf]
      omega
    · simp only [if_neg hf]
      omega
  · intro hf
    have : w.m_Lights.length = w.capacity := by
      simpa [LightWorld.Full] using hf
    simp [this]
  · intro hf
    have : w.m_Lights.length ≠ w.capacity := by
      simpa [LightWorld.Full] using hf
    simp [this]

/-- Witness for C9 on concrete inputs: creating in a full world (length
= capacity = 0) grows the capacity by 16 and succeeds. -/
theorem C9_witness :
    ((⟨[], 0⟩ : LightWorld).m_Lights.length ≤
      (⟨[], 0⟩ : LightWorld).capacity) ∧
    (∃ w2 : LightWorld,
      CompLightCreate ⟨[], 0⟩ 10 descA 1 =
        some (CreateResult.CREATE_RESULT_OK, w2, ⟨1, 10, descA⟩) ∧
      w2.m_Lights = (⟨[], 0⟩ : LightWorld).m_Lights ++ [⟨1, 10, descA⟩] ∧
      w2.m_Lights.length ≤ w2.capacity ∧
      ((⟨[], 0⟩ : LightWorld).Full = true → w2.capacity = 0 + 16) ∧
      ((⟨[], 0⟩ : LightWorld).Full = false → w2.capacity = 0)) :=
  ⟨by decide, C9_create_never_overflows ⟨[], 0⟩ 10 descA 1 (by decide)⟩

/-- C10: under the precondition that the light passed to
`CompLightDestroy` was created in the same world and has not yet been
destroyed (it is in the world's list), the `assert(false)` branch of
`CompLightDestroy` is unreachable: the light is found in the list,
removed by swapping with the last element (so the remaining lights'
order may change), and `CREATE_RESULT_OK` is returned. -/
theorem C10_destroy_assert_unreachable (w : LightWorld) (light : Light)
    (hmem : light ∈ w.m_Lights) :
    ∃ i, ∃ hi : i < w.m_Lights.length,
      w.m_Lights[i] = light ∧
      CompLightDestroy w light =
        some (CreateResult.CREATE_RESULT_OK, w.EraseSwap i) ∧
      (w.EraseSwap i).m_Lights.count light + 1 =
        w.m_Lights.count light := by
  obtain ⟨i, hi, hget, hdes⟩ := compLightDestroy_of_mem w light hmem
  refine ⟨i, hi, hget, hdes, ?_⟩
  have := count_eraseSwap w.m_Lights i hi light
  rw [hget] at this
  simpa [LightWorld.EraseSwap] using this

/-- Witness for C10 on concrete inputs. -/
theorem C10_witness :
    (lA ∈ wA.m_Lights) ∧
    (∃ i, ∃ hi : i < wA.m_Lights.length,
      wA.m_Lights[i] = lA ∧
      CompLightDestroy wA lA =
        some (CreateResult.CREATE_RESULT_OK, wA.EraseSwap i) ∧
      (wA.EraseSwap i).m_Lights.count lA + 1 = wA.m_Lights.count lA) :=
  ⟨by decide, C10_destroy_assert_unreachable wA lA (by decide)⟩

end dmGameSystem
